import Mathlib

/-!
Verification of the terminal animation engine of `main.py` (starfield,
firework particles, frame buffer with minimal color-change rendering).

The Python source is shallowly embedded: floats become `ℚ` (the claims under
study only involve exact arithmetic on the embedded operations), Python ints
become `ℤ`, and the ambient `random.*` draws become explicit parameters
constrained by hypotheses stating the documented ranges of the corresponding
`random.uniform` / `random.randint` / `random.choice` calls.  The library
functions `math.cos` / `math.sin` are abstracted as function parameters
`fcos` / `fsin` where they occur (no claim depends on their values).
-/

namespace WowShow

/-- RGB color triple, as produced by the Python code (channel values are ints). -/
abbrev Color := ℤ × ℤ × ℤ

/-- `clamp(x, a, b)` from main.py: `a if x < a else b if x > b else x`. -/
def clamp {α : Type} [LinearOrder α] (x a b : α) : α :=
  if x < a then a else if x > b then b else x

/-- Python `int(...)` applied to a rational: truncation toward zero. -/
def pyInt (q : ℚ) : ℤ := if 0 ≤ q then ⌊q⌋ else ⌈q⌉

/-- The `Particle` class of main.py (fields as in `__slots__`). -/
structure Particle where
  x : ℚ
  y : ℚ
  vx : ℚ
  vy : ℚ
  life : ℤ
  maxlife : ℤ
  r : ℤ
  g : ℤ
  b : ℤ
  char : Char
  gravity : ℚ
  drag : ℚ
deriving DecidableEq

/-- `Particle.__init__`: `maxlife` is initialised to `life`, the color triple
is unpacked into `r`, `g`, `b`. -/
def Particle.make (x y vx vy : ℚ) (life : ℤ) (color : Color) (char : Char)
    (gravity drag : ℚ) : Particle :=
  { x := x, y := y, vx := vx, vy := vy, life := life, maxlife := life,
    r := color.1, g := color.2.1, b := color.2.2, char := char,
    gravity := gravity, drag := drag }

/-- `Particle.alive`: `self.life > 0`. -/
def Particle.alive (p : Particle) : Prop := p.life > 0

instance (p : Particle) : Decidable p.alive :=
  inferInstanceAs (Decidable (p.life > 0))

/-- `Particle.step`: decrement life, apply drag and gravity to the velocity,
then move by the updated velocity. -/
def Particle.step (p : Particle) : Particle :=
  let vx := p.vx * p.drag
  let vy := p.vy * p.drag + p.gravity
  { p with life := p.life - 1, vx := vx, vy := vy, x := p.x + vx, y := p.y + vy }

/-- `Particle.fade_color`: quadratic fade of the base color as life decreases
(`t = life/maxlife if maxlife else 0`, clamped to `[0,1]`, squared, each
channel truncated by Python `int`). -/
def Particle.fade_color (p : Particle) : Color :=
  let t : ℚ := if p.maxlife ≠ 0 then (p.life : ℚ) / (p.maxlife : ℚ) else 0
  let tc := clamp t 0 1
  let t2 := tc * tc
  (pyInt ((p.r : ℚ) * t2), pyInt ((p.g : ℚ) * t2), pyInt ((p.b : ℚ) * t2))

/-- The `Star` class of main.py. -/
structure Star where
  x : ℚ
  y : ℚ
  z : ℚ
  vx : ℚ
  vy : ℚ
deriving DecidableEq

/-- The five ambient `random.uniform` draws consumed by one call of
`Star.reset`. -/
structure StarDraw where
  x : ℚ
  y : ℚ
  z : ℚ
  vx : ℚ
  vy : ℚ
deriving DecidableEq

/-- The ranges of the draws in `Star.reset`: position within
`[-w, w] × [-h, h]`, depth within `[0.2, 1.0]`, drift within
`[-0.05, 0.05] × [-0.03, 0.03]`. -/
def StarDraw.InRange (d : StarDraw) (w h : ℚ) : Prop :=
  -w ≤ d.x ∧ d.x ≤ w ∧ -h ≤ d.y ∧ d.y ≤ h ∧
  1/5 ≤ d.z ∧ d.z ≤ 1 ∧
  -(1/20) ≤ d.vx ∧ d.vx ≤ 1/20 ∧ -(3/100) ≤ d.vy ∧ d.vy ≤ 3/100

/-- `Star.reset`, with the random draws made explicit. -/
def Star.reset (d : StarDraw) : Star :=
  { x := d.x, y := d.y, z := d.z, vx := d.vx, vy := d.vy }

/-- `Star.step`: depth decreases by `speed`, position drifts, and when the
depth falls to `0.02` or below the star is re-initialised from a fresh draw. -/
def Star.step (s : Star) (speed : ℚ) (d : StarDraw) : Star :=
  let s' := { s with z := s.z - speed, x := s.x + s.vx, y := s.y + s.vy }
  if s'.z ≤ 1/50 then Star.reset d else s'

/-- Iterated `Star.step`; `ds n` is the draw consumed if the `n`-th step
respawns the star. -/
def Star.steps (speed : ℚ) (ds : ℕ → StarDraw) (s : Star) : ℕ → Star
  | 0 => s
  | n + 1 => (Star.steps speed ds s n).step speed (ds n)

/-- The `Buffer` class of main.py: a character grid plus a parallel
foreground-color grid (row-major, `None` meaning uncolored). -/
structure Buffer where
  w : ℤ
  h : ℤ
  ch : List (List Char)
  fg : List (List (Option Color))
deriving DecidableEq

/-- `Buffer.resize`: the stored dimensions are floored at 20 × 10, and both
grids are reallocated blank, discarding any prior contents. -/
def Buffer.resize (_b : Buffer) (w h : ℤ) : Buffer :=
  let w' := max 20 w
  let h' := max 10 h
  { w := w', h := h',
    ch := List.replicate h'.toNat (List.replicate w'.toNat ' '),
    fg := List.replicate h'.toNat (List.replicate w'.toNat none) }

/-- `Buffer.__init__(w, h)` just calls `resize`. -/
def Buffer.init (w h : ℤ) : Buffer :=
  Buffer.resize { w := 0, h := 0, ch := [], fg := [] } w h

/-- `Buffer.clear`: every cell becomes blank and uncolored. -/
def Buffer.clear (b : Buffer) : Buffer :=
  { b with ch := b.ch.map (fun row => row.map fun _ => ' '),
           fg := b.fg.map (fun row => row.map fun _ => none) }

/-- `Buffer.put`: write the glyph and color only when `(x, y)` is within
bounds; otherwise the buffer is returned unchanged. -/
def Buffer.put (b : Buffer) (x y : ℤ) (c : Char) (color : Option Color) : Buffer :=
  if 0 ≤ x ∧ x < b.w ∧ 0 ≤ y ∧ y < b.h then
    { b with
      ch := b.ch.set y.toNat ((b.ch.getD y.toNat []).set x.toNat c),
      fg := b.fg.set y.toNat ((b.fg.getD y.toNat []).set x.toNat color) }
  else b

/-- The glyph stored at `(x, y)` (blank when out of range). -/
def Buffer.chAt (b : Buffer) (x y : ℤ) : Char :=
  (b.ch.getD y.toNat []).getD x.toNat ' '

/-- The color stored at `(x, y)` (`none` when out of range). -/
def Buffer.fgAt (b : Buffer) (x y : ℤ) : Option Color :=
  (b.fg.getD y.toNat []).getD x.toNat none

/-- Well-formedness of a buffer: the grids have exactly `h` rows of `w`
cells. Established by `resize` and preserved by `put`/`clear`. -/
def Buffer.Wf (b : Buffer) : Prop :=
  b.ch.length = b.h.toNat ∧ b.fg.length = b.h.toNat ∧
  (∀ row ∈ b.ch, row.length = b.w.toNat) ∧
  (∀ row ∈ b.fg, row.length = b.w.toNat)

instance (b : Buffer) : Decidable b.Wf := by
  unfold Buffer.Wf; infer_instance

/-- One draw instruction of `Buffer.render`: a color set (`set_rgb`), a style
reset (`reset_style`), or a glyph.  The Python code concatenates the escape
strings of these instructions (plus a cosmetic newline between rows that is
not a draw instruction). -/
inductive Instr where
  | setColor : ℤ → ℤ → ℤ → Instr
  | reset : Instr
  | glyph : Char → Instr
deriving DecidableEq, BEq

/-- Body of the inner loop of `Buffer.render`: the accumulator carries the
emitted instructions of the row so far and `last`, the color of the most
recently emitted cell (starting at `None`). -/
def renderCell (acc : List Instr × Option Color) (cell : Char × Option Color) :
    List Instr × Option Color :=
  let parts :=
    if cell.2 ≠ acc.2 then
      acc.1 ++ [match cell.2 with
        | none => Instr.reset
        | some c => Instr.setColor c.1 c.2.1 c.2.2]
    else acc.1
  (parts ++ [Instr.glyph cell.1], cell.2)

/-- One row of `Buffer.render`: scan the cells with `renderCell` starting
from `last = None`, then emit the trailing `reset_style`. -/
def renderRow (chRow : List Char) (fgRow : List (Option Color)) : List Instr :=
  ((chRow.zip fgRow).foldl renderCell ([], none)).1 ++ [Instr.reset]

/-- `Buffer.render` as its stream of draw instructions, rows top to bottom
(`last` is reset to `None` at each row boundary, as in the source). -/
def Buffer.render (b : Buffer) : List Instr :=
  ((b.ch.zip b.fg).map fun rf => renderRow rf.1 rf.2).flatten

/-- Is this instruction a glyph emission? -/
def Instr.isGlyph : Instr → Bool
  | Instr.glyph _ => true
  | _ => false

/-- Number of non-glyph (control) instructions in a render stream. -/
def countControl (l : List Instr) : ℕ :=
  (l.filter fun i => ! i.isGlyph).length

/-- Number of color-set instructions in a render stream. -/
def countSetColor (l : List Instr) : ℕ :=
  (l.filter fun i => match i with
    | Instr.setColor _ _ _ => true
    | _ => false).length

/-- Does `l` start with the block `pat`? -/
def matchesAt : List Instr → List Instr → Bool
  | [], _ => true
  | _ :: _, [] => false
  | a :: pat, b :: l => a == b && matchesAt pat l

/-- Does `l` contain the contiguous block `pat`? -/
def containsBlock : List Instr → List Instr → Bool
  | pat, [] => matchesAt pat []
  | pat, b :: l => matchesAt pat (b :: l) || containsBlock pat l

/-- `spawn_firework`: appends one rocket particle (glyph a vertical bar,
neutral light-gray color, gravity 0.09, drag 0.995) to the particle list.
The random draws — `x ~ U(0.2w, 0.8w)`, `y ~ U(0.65h, 0.90h)`,
`vx ~ U(-0.25, 0.25)`, `vy ~ U(-2.6, -2.0)`, `life ~ randint(18, 28)` —
are explicit parameters. -/
def spawn_firework (particles : List Particle) (w h x y vx vy : ℚ) (life : ℤ) :
    List Particle :=
  particles ++ [Particle.make x y vx vy life (220, 220, 220) '|' (9/100) (199/200)]

/-- The rocket particle appended by `spawn_firework`, for reference in
statements. -/
def rocketOf (x y vx vy : ℚ) (life : ℤ) : Particle :=
  Particle.make x y vx vy life (220, 220, 220) '|' (9/100) (199/200)

/-- The glyph set that `random.choice` draws from in the burst loop of
`explode`. -/
def sparkleChars : List Char := ['•', '·', '*', '✦', '✧']

/-- The draws consumed by one iteration of the burst loop of `explode`:
angle, speed, life and the glyph chosen from `sparkleChars`. -/
structure BurstDraw where
  ang : ℚ
  spd : ℚ
  life : ℤ
  char : Char
deriving DecidableEq

/-- The draws consumed by one iteration of the glitter loop of `explode`
(its glyph is always the fine dot). -/
structure GlitterDraw where
  ang : ℚ
  spd : ℚ
  life : ℤ
deriving DecidableEq

/-- `explode(particles, x, y, w, h)`: appends the burst cohort (gravity 0.10,
drag 0.990, the shared vibrant `color`) and then the glitter cohort (gravity
0.06, drag 0.993, pastel = per-channel `int((c+255)/2)` of the burst color,
glyph the fine dot).  The cohort sizes are the lengths of the draw lists
(`randint(70, 130)` and `randint(40, 70)` in the source); `fcos`/`fsin`
abstract `math.cos`/`math.sin`. -/
def explode (fcos fsin : ℚ → ℚ) (particles : List Particle) (x y w h : ℚ)
    (color : Color) (burst : List BurstDraw) (glitter : List GlitterDraw) :
    List Particle :=
  let afterBurst := particles ++ burst.map (fun d =>
    Particle.make x y (fcos d.ang * d.spd) (fsin d.ang * d.spd) d.life color
      d.char (1/10) (99/100))
  afterBurst ++ glitter.map (fun d =>
    Particle.make x y (fcos d.ang * d.spd) (fsin d.ang * d.spd) d.life
      (pyInt (((color.1 : ℚ) + 255) / 2), pyInt (((color.2.1 : ℚ) + 255) / 2),
        pyInt (((color.2.2 : ℚ) + 255) / 2))
      '·' (3/50) (993/1000))

/-- Body of the particle-update loop of `main` for one particle: if it is a
rocket (glyph a vertical bar) with `life == 1`, the explosion fragments
(`frags p.x p.y`, abstracting the random output of `explode` at that
position) are appended and the event is recorded; then the particle is
stepped and kept only while alive. -/
def updStep (frags : ℚ → ℚ → List Particle)
    (acc : List Particle × List (ℚ × ℚ)) (p : Particle) :
    List Particle × List (ℚ × ℚ) :=
  let acc1 :=
    if p.char = '|' ∧ p.life = 1 then
      (acc.1 ++ frags p.x p.y, acc.2 ++ [(p.x, p.y)])
    else acc
  let q := Particle.step p
  if q.alive then (acc1.1 ++ [q], acc1.2) else acc1

/-- The particle-update block of `main` (lines 433–454): fold `updStep` over
the live set, producing the next live set and the list of explosion events
(positions at which `explode` was invoked) of this simulation step. -/
def updateParticles (frags : ℚ → ℚ → List Particle) (ps : List Particle) :
    List Particle × List (ℚ × ℚ) :=
  ps.foldl (updStep frags) ([], [])

/-- The live set after `n` simulation steps of the main loop. -/
def iterLive (frags : ℚ → ℚ → List Particle) (ps : List Particle) : ℕ → List Particle
  | 0 => ps
  | n + 1 => (updateParticles frags (iterLive frags ps n)).1

/-- The explosion events generated during step `n` (count from 0) of the main
loop started on live set `ps`. -/
def eventsAt (frags : ℚ → ℚ → List Particle) (ps : List Particle) (n : ℕ) :
    List (ℚ × ℚ) :=
  (updateParticles frags (iterLive frags ps n)).2

/-- The 40 × 20 buffer of the render scenario: glyph A in red at (5,5) and
glyph B in the same red at (6,5). -/
def scenarioBuf : Buffer :=
  ((Buffer.init 40 20).put 5 5 'A' (some (255, 0, 0))).put 6 5 'B' (some (255, 0, 0))

theorem Particle.step_char (p : Particle) : (Particle.step p).char = p.char := rfl

theorem Particle.step_life (p : Particle) : (Particle.step p).life = p.life - 1 := rfl

theorem step_iterate_char (p : Particle) (n : ℕ) :
    (Particle.step^[n] p).char = p.char := by
  induction n with
  | zero => rfl
  | succ n ih => rw [Function.iterate_succ_apply', Particle.step_char, ih]

theorem step_iterate_life (p : Particle) (n : ℕ) :
    (Particle.step^[n] p).life = p.life - n := by
  induction n with
  | zero => simp
  | succ n ih =>
      rw [Function.iterate_succ_apply', Particle.step_life, ih]
      push_cast
      ring

theorem updStep_eq (frags : ℚ → ℚ → List Particle)
    (acc : List Particle × List (ℚ × ℚ)) (p : Particle) :
    updStep frags acc p =
      (acc.1 ++ ((if p.char = '|' ∧ p.life = 1 then frags p.x p.y else []) ++
          (if 0 < (Particle.step p).life then [Particle.step p] else [])),
       acc.2 ++ (if p.char = '|' ∧ p.life = 1 then [(p.x, p.y)] else [])) := by
  unfold updStep Particle.alive
  by_cases h1 : p.char = '|' ∧ p.life = 1 <;>
    by_cases h2 : 0 < (Particle.step p).life <;>
      simp [h1, h2, List.append_assoc]

theorem updateParticles_foldl (frags : ℚ → ℚ → List Particle)
    (ps : List Particle) (acc : List Particle × List (ℚ × ℚ)) :
    ps.foldl (updStep frags) acc =
      (acc.1 ++ (ps.map fun p =>
          (if p.char = '|' ∧ p.life = 1 then frags p.x p.y else []) ++
          (if 0 < (Particle.step p).life then [Particle.step p] else [])).flatten,
       acc.2 ++ (ps.map fun p =>
          if p.char = '|' ∧ p.life = 1 then [(p.x, p.y)] else []).flatten) := by
  induction ps generalizing acc with
  | nil => simp
  | cons p ps ih =>
      rw [List.foldl_cons, updStep_eq, ih]
      simp [List.append_assoc]

theorem updateParticles_eq (frags : ℚ → ℚ → List Particle) (ps : List Particle) :
    updateParticles frags ps =
      ((ps.map fun p =>
          (if p.char = '|' ∧ p.life = 1 then frags p.x p.y else []) ++
          (if 0 < (Particle.step p).life then [Particle.step p] else [])).flatten,
       (ps.map fun p =>
          if p.char = '|' ∧ p.life = 1 then [(p.x, p.y)] else []).flatten) := by
  unfold updateParticles
  rw [updateParticles_foldl]
  simp

/-- C2: each simulation step decreases the life of every particle by exactly 1,
and the next live set is exactly the interleaving of explosion fragments
with the stepped particles, where a stepped particle is kept if and only if
its post-step life is still positive (so it is removed precisely at the step
where its life reaches 0, not before). -/
theorem life_decreases_and_removal_exact (frags : ℚ → ℚ → List Particle)
    (ps : List Particle) :
    (∀ p : Particle, (Particle.step p).life = p.life - 1) ∧
    (updateParticles frags ps).1 =
      (ps.map fun p =>
        (if p.char = '|' ∧ p.life = 1 then frags p.x p.y else []) ++
        (if 0 < (Particle.step p).life then [Particle.step p] else [])).flatten := by
  refine ⟨fun p => rfl, ?_⟩
  rw [updateParticles_eq]

/-- C1: a rocket appended by `spawn_firework` (glyph a vertical bar, life
drawn from 18..28) generates an explosion event on exactly one simulation
step — the one where its life is 1 at the start of the step — at its
current position at that step; on that same step it is removed from the live
set (the new live set holds only the fragments of the explosion), and it is live
at the start of every earlier step. -/
theorem rocket_explodes_exactly_once (w h x y vx vy : ℚ) (L : ℤ)
    (hL : 18 ≤ L) (hL' : L ≤ 28) (frags : ℚ → ℚ → List Particle) :
    (∀ ps : List Particle,
        spawn_firework ps w h x y vx vy L = ps ++ [rocketOf x y vx vy L]) ∧
    (∀ n : ℕ, (n : ℤ) < L → 0 < (Particle.step^[n] (rocketOf x y vx vy L)).life) ∧
    (∀ n : ℕ,
        (updateParticles frags [Particle.step^[n] (rocketOf x y vx vy L)]).2 =
          if (n : ℤ) = L - 1 then
            [((Particle.step^[n] (rocketOf x y vx vy L)).x,
              (Particle.step^[n] (rocketOf x y vx vy L)).y)]
          else []) ∧
    ((updateParticles frags
        [Particle.step^[(L - 1).toNat] (rocketOf x y vx vy L)]).1 =
      frags (Particle.step^[(L - 1).toNat] (rocketOf x y vx vy L)).x
        (Particle.step^[(L - 1).toNat] (rocketOf x y vx vy L)).y) := by
  have hchar : ∀ n : ℕ, (Particle.step^[n] (rocketOf x y vx vy L)).char = '|' := by
    intro n
    rw [step_iterate_char]
    rfl
  have hlife : ∀ n : ℕ, (Particle.step^[n] (rocketOf x y vx vy L)).life = L - n := by
    intro n
    rw [step_iterate_life]
    rfl
  refine ⟨fun ps => rfl, ?_, ?_, ?_⟩
  · intro n hn
    rw [hlife]
    omega
  · intro n
    rw [updateParticles_eq]
    by_cases hn : (n : ℤ) = L - 1
    · have htrig : (Particle.step^[n] (rocketOf x y vx vy L)).char = '|' ∧
          (Particle.step^[n] (rocketOf x y vx vy L)).life = 1 := by
        refine ⟨hchar n, ?_⟩
        rw [hlife]
        omega
      simp [htrig, hn]
    · have htrig : ¬ ((Particle.step^[n] (rocketOf x y vx vy L)).char = '|' ∧
          (Particle.step^[n] (rocketOf x y vx vy L)).life = 1) := by
        rw [hlife]
        intro hc
        omega
      simp [htrig, hn]
  · rw [updateParticles_eq]
    have hn : ((L - 1).toNat : ℤ) = L - 1 := by omega
    have htrig : (Particle.step^[(L - 1).toNat] (rocketOf x y vx vy L)).char = '|' ∧
        (Particle.step^[(L - 1).toNat] (rocketOf x y vx vy L)).life = 1 := by
      refine ⟨hchar _, ?_⟩
      rw [hlife]
      omega
    have hdead : ¬ 0 < (Particle.step (Particle.step^[(L - 1).toNat]
        (rocketOf x y vx vy L))).life := by
      rw [Particle.step_life, hlife]
      omega
    simp only [List.map_cons, List.map_nil, List.flatten_cons, List.flatten_nil,
      List.append_nil]
    rw [if_pos htrig, if_neg hdead, List.append_nil]

/-- Closed instance of `rocket_explodes_exactly_once` at a concrete rocket
(life 20, spawned at (50, 20)) with an empty fragment oracle. -/
theorem rocket_explodes_exactly_once_witness :
    (18 : ℤ) ≤ 20 ∧ (20 : ℤ) ≤ 28 ∧
    ((∀ ps : List Particle,
        spawn_firework ps 100 30 50 20 0 (-11/5) 20 = ps ++ [rocketOf 50 20 0 (-11/5) 20]) ∧
     (∀ n : ℕ, (n : ℤ) < 20 → 0 < (Particle.step^[n] (rocketOf 50 20 0 (-11/5) 20)).life) ∧
     (∀ n : ℕ,
        (updateParticles (fun _ _ => []) [Particle.step^[n] (rocketOf 50 20 0 (-11/5) 20)]).2 =
          if (n : ℤ) = 20 - 1 then
            [((Particle.step^[n] (rocketOf 50 20 0 (-11/5) 20)).x,
              (Particle.step^[n] (rocketOf 50 20 0 (-11/5) 20)).y)]
          else []) ∧
     ((updateParticles (fun _ _ => [])
        [Particle.step^[((20 : ℤ) - 1).toNat] (rocketOf 50 20 0 (-11/5) 20)]).1 =
       (fun _ _ => ([] : List Particle))
         (Particle.step^[((20 : ℤ) - 1).toNat] (rocketOf 50 20 0 (-11/5) 20)).x
         (Particle.step^[((20 : ℤ) - 1).toNat] (rocketOf 50 20 0 (-11/5) 20)).y)) :=
  ⟨by decide, by decide,
    rocket_explodes_exactly_once 100 30 50 20 0 (-11/5) 20 (by decide) (by decide)
      (fun _ _ => [])⟩

theorem pyInt_of_nonneg (q : ℚ) (h : 0 ≤ q) : pyInt q = ⌊q⌋ := if_pos h

theorem pyInt_intCast (n : ℤ) : pyInt (n : ℚ) = n := by
  unfold pyInt
  split <;> simp

theorem pyInt_nonneg (q : ℚ) (h : 0 ≤ q) : 0 ≤ pyInt q := by
  rw [pyInt_of_nonneg q h]
  exact Int.floor_nonneg.mpr h

theorem pyInt_mono_of_nonneg (q r : ℚ) (hq : 0 ≤ q) (hqr : q ≤ r) :
    pyInt q ≤ pyInt r := by
  rw [pyInt_of_nonneg q hq, pyInt_of_nonneg r (le_trans hq hqr)]
  exact Int.floor_le_floor hqr

theorem fade_color_eval (p : Particle) (hmax : 0 < p.maxlife)
    (hl0 : 0 ≤ p.life) (hl1 : p.life ≤ p.maxlife) :
    p.fade_color =
      (pyInt ((p.r : ℚ) * ((p.life : ℚ) / (p.maxlife : ℚ)) ^ 2),
       pyInt ((p.g : ℚ) * ((p.life : ℚ) / (p.maxlife : ℚ)) ^ 2),
       pyInt ((p.b : ℚ) * ((p.life : ℚ) / (p.maxlife : ℚ)) ^ 2)) := by
  have hmq : (0 : ℚ) < (p.maxlife : ℚ) := by exact_mod_cast hmax
  have ht0 : 0 ≤ (p.life : ℚ) / (p.maxlife : ℚ) :=
    div_nonneg (by exact_mod_cast hl0) (le_of_lt hmq)
  have ht1 : (p.life : ℚ) / (p.maxlife : ℚ) ≤ 1 :=
    (div_le_one hmq).mpr (by exact_mod_cast hl1)
  unfold Particle.fade_color clamp
  rw [if_pos (by exact_mod_cast (ne_of_gt hmax))]
  dsimp only
  rw [if_neg (not_lt.mpr ht0), if_neg (not_lt.mpr ht1), ← pow_two]

/-- Channel bounds for the faded color: scaling a channel in 0..255 by a
factor `t ^ 2` with `t` in `[0, 1]` keeps it in 0..255. -/
theorem fade_channel_le (c : ℤ) (t : ℚ) (hc0 : 0 ≤ c) (hc1 : c ≤ 255)
    (ht0 : 0 ≤ t) (ht1 : t ≤ 1) :
    0 ≤ pyInt ((c : ℚ) * t ^ 2) ∧ pyInt ((c : ℚ) * t ^ 2) ≤ 255 := by
  have hcq : (0 : ℚ) ≤ (c : ℚ) := by exact_mod_cast hc0
  have ht2 : 0 ≤ t ^ 2 := sq_nonneg t
  have ht2' : t ^ 2 ≤ 1 := by
    rw [pow_two]
    exact mul_le_one₀ ht1 ht0 ht1
  have h0 : 0 ≤ (c : ℚ) * t ^ 2 := mul_nonneg hcq ht2
  have h1 : (c : ℚ) * t ^ 2 ≤ (c : ℚ) := mul_le_of_le_one_right hcq ht2'
  refine ⟨pyInt_nonneg _ h0, ?_⟩
  calc pyInt ((c : ℚ) * t ^ 2) ≤ pyInt ((c : ℚ)) := pyInt_mono_of_nonneg _ _ h0 h1
    _ = c := pyInt_intCast c
    _ ≤ 255 := hc1

/-- C3: for a particle with positive `maxlife`, `0 ≤ life ≤ maxlife` and base
channels in 0..255, `fade_color` is the base color scaled per channel by
`(life/maxlife)^2` truncated to an integer; every channel stays in 0..255;
the result is exactly the base color at `life = maxlife`, is (0,0,0) at
`life = 0`, and each channel is monotone non-decreasing in `life`. -/
theorem fade_color_spec (p : Particle) (hmax : 0 < p.maxlife)
    (hl0 : 0 ≤ p.life) (hl1 : p.life ≤ p.maxlife)
    (hr0 : 0 ≤ p.r) (hr1 : p.r ≤ 255) (hg0 : 0 ≤ p.g) (hg1 : p.g ≤ 255)
    (hb0 : 0 ≤ p.b) (hb1 : p.b ≤ 255) :
    p.fade_color =
      (pyInt ((p.r : ℚ) * ((p.life : ℚ) / (p.maxlife : ℚ)) ^ 2),
       pyInt ((p.g : ℚ) * ((p.life : ℚ) / (p.maxlife : ℚ)) ^ 2),
       pyInt ((p.b : ℚ) * ((p.life : ℚ) / (p.maxlife : ℚ)) ^ 2)) ∧
    (0 ≤ p.fade_color.1 ∧ p.fade_color.1 ≤ 255 ∧
     0 ≤ p.fade_color.2.1 ∧ p.fade_color.2.1 ≤ 255 ∧
     0 ≤ p.fade_color.2.2 ∧ p.fade_color.2.2 ≤ 255) ∧
    (p.life = p.maxlife → p.fade_color = (p.r, p.g, p.b)) ∧
    (p.life = 0 → p.fade_color = (0, 0, 0)) ∧
    (∀ l₁ l₂ : ℤ, 0 ≤ l₁ → l₁ ≤ l₂ → l₂ ≤ p.maxlife →
      ({ p with life := l₁ } : Particle).fade_color.1 ≤
        ({ p with life := l₂ } : Particle).fade_color.1 ∧
      ({ p with life := l₁ } : Particle).fade_color.2.1 ≤
        ({ p with life := l₂ } : Particle).fade_color.2.1 ∧
      ({ p with life := l₁ } : Particle).fade_color.2.2 ≤
        ({ p with life := l₂ } : Particle).fade_color.2.2) := by
  have hmq : (0 : ℚ) < (p.maxlife : ℚ) := by exact_mod_cast hmax
  have ht0 : 0 ≤ (p.life : ℚ) / (p.maxlife : ℚ) :=
    div_nonneg (by exact_mod_cast hl0) (le_of_lt hmq)
  have ht1 : (p.life : ℚ) / (p.maxlife : ℚ) ≤ 1 :=
    (div_le_one hmq).mpr (by exact_mod_cast hl1)
  have heval := fade_color_eval p hmax hl0 hl1
  refine ⟨heval, ?_, ?_, ?_, ?_⟩
  · rw [heval]
    exact ⟨(fade_channel_le p.r _ hr0 hr1 ht0 ht1).1,
      (fade_channel_le p.r _ hr0 hr1 ht0 ht1).2,
      (fade_channel_le p.g _ hg0 hg1 ht0 ht1).1,
      (fade_channel_le p.g _ hg0 hg1 ht0 ht1).2,
      (fade_channel_le p.b _ hb0 hb1 ht0 ht1).1,
      (fade_channel_le p.b _ hb0 hb1 ht0 ht1).2⟩
  · intro hml
    rw [heval, hml, div_self (ne_of_gt hmq)]
    simp [pyInt_intCast]
  · intro h0
    rw [heval, h0]
    norm_num [pyInt]
  · intro l₁ l₂ h1 h12 h2m
    have e1 := fade_color_eval { p with life := l₁ } hmax h1 (le_trans h12 h2m)
    have e2 := fade_color_eval { p with life := l₂ } hmax (le_trans h1 h12) h2m
    simp only at e1 e2
    rw [e1, e2]
    have h10 : 0 ≤ (l₁ : ℚ) / (p.maxlife : ℚ) :=
      div_nonneg (by exact_mod_cast h1) (le_of_lt hmq)
    have h12q : (l₁ : ℚ) ≤ (l₂ : ℚ) := by exact_mod_cast h12
    have htm : ((l₁ : ℚ) / (p.maxlife : ℚ)) ^ 2 ≤ ((l₂ : ℚ) / (p.maxlife : ℚ)) ^ 2 :=
      pow_le_pow_left₀ h10 (by gcongr) 2
    have key : ∀ c : ℤ, 0 ≤ c →
        pyInt ((c : ℚ) * ((l₁ : ℚ) / (p.maxlife : ℚ)) ^ 2) ≤
          pyInt ((c : ℚ) * ((l₂ : ℚ) / (p.maxlife : ℚ)) ^ 2) := by
      intro c hc
      have hcq : (0 : ℚ) ≤ (c : ℚ) := by exact_mod_cast hc
      exact pyInt_mono_of_nonneg _ _ (mul_nonneg hcq (sq_nonneg _))
        (mul_le_mul_of_nonneg_left htm hcq)
    exact ⟨key p.r hr0, key p.g hg0, key p.b hb0⟩

/-- Closed instance of `fade_color_spec` at a concrete particle (life 5 of
maxlife 10, base color (200, 100, 50)). -/
theorem fade_color_spec_witness :
    (0 : ℤ) < 10 ∧
    (Particle.make 0 0 0 0 10 (200, 100, 50) '•' (1/10) (99/100)).fade_color =
      (pyInt (((200 : ℤ) : ℚ) * ((((10 : ℤ) : ℚ)) / (((10 : ℤ) : ℚ))) ^ 2),
       pyInt (((100 : ℤ) : ℚ) * ((((10 : ℤ) : ℚ)) / (((10 : ℤ) : ℚ))) ^ 2),
       pyInt (((50 : ℤ) : ℚ) * ((((10 : ℤ) : ℚ)) / (((10 : ℤ) : ℚ))) ^ 2)) :=
  ⟨by decide,
    (fade_color_spec (Particle.make 0 0 0 0 10 (200, 100, 50) '•' (1/10) (99/100))
      (by decide) (by decide) (by decide) (by decide) (by decide) (by decide)
      (by decide) (by decide) (by decide)).1⟩

/-- C4: a star created by `Star.reset` (depth drawn from `[0.2, 1.0]`) keeps
its depth within `(0.02, 1.0]` after any number of `Star.step`s with a
positive speed, provided every respawn draw also takes its depth from
`[0.2, 1.0]`. -/
theorem star_depth_invariant (d0 : StarDraw) (speed : ℚ) (ds : ℕ → StarDraw)
    (h0 : 1/5 ≤ d0.z ∧ d0.z ≤ 1) (hspeed : 0 < speed)
    (hds : ∀ n : ℕ, 1/5 ≤ (ds n).z ∧ (ds n).z ≤ 1) :
    ∀ n : ℕ, 1/50 < (Star.steps speed ds (Star.reset d0) n).z ∧
      (Star.steps speed ds (Star.reset d0) n).z ≤ 1 := by
  intro n
  induction n with
  | zero =>
      constructor
      · calc (1 : ℚ)/50 < 1/5 := by norm_num
          _ ≤ (Star.reset d0).z := h0.1
      · exact h0.2
  | succ n ih =>
      have hstep : Star.steps speed ds (Star.reset d0) (n + 1) =
          (Star.steps speed ds (Star.reset d0) n).step speed (ds n) := rfl
      rw [hstep]
      unfold Star.step
      dsimp only
      split
      · refine ⟨?_, (hds n).2⟩
        calc (1 : ℚ)/50 < 1/5 := by norm_num
          _ ≤ (ds n).z := (hds n).1
      · rename_i hz
        push_neg at hz
        refine ⟨hz, ?_⟩
        show (Star.steps speed ds (Star.reset d0) n).z - speed ≤ 1
        linarith [ih.2]

theorem fifth_le_one : (1 : ℚ)/5 ≤ 1 := by norm_num

/-- Closed instance of `star_depth_invariant` with a concrete initial draw of
depth 1, speed 1, and constant respawn draws of depth 1. -/
theorem star_depth_invariant_witness :
    ((1 : ℚ)/5 ≤ (StarDraw.mk 0 0 1 0 0).z ∧ (StarDraw.mk 0 0 1 0 0).z ≤ 1) ∧
    (0 : ℚ) < 1 ∧
    (∀ n : ℕ, 1/50 <
        (Star.steps 1 (fun _ => StarDraw.mk 0 0 1 0 0)
          (Star.reset (StarDraw.mk 0 0 1 0 0)) n).z ∧
      (Star.steps 1 (fun _ => StarDraw.mk 0 0 1 0 0)
          (Star.reset (StarDraw.mk 0 0 1 0 0)) n).z ≤ 1) :=
  ⟨⟨fifth_le_one, le_refl 1⟩, one_pos,
    star_depth_invariant (StarDraw.mk 0 0 1 0 0) 1
      (fun _ => StarDraw.mk 0 0 1 0 0) ⟨fifth_le_one, le_refl 1⟩ one_pos
      (fun _ => ⟨fifth_le_one, le_refl 1⟩)⟩

theorem list_getD_set_self {α : Type} (l : List α) (i : ℕ) (a d : α)
    (h : i < l.length) : (l.set i a).getD i d = a := by
  induction l generalizing i with
  | nil => simp at h
  | cons x xs ih =>
      cases i with
      | zero => rfl
      | succ i => simpa using ih i (by simpa using h)

theorem list_getD_mem {α : Type} (l : List α) (i : ℕ) (d : α)
    (h : i < l.length) : l.getD i d ∈ l := by
  induction l generalizing i with
  | nil => simp at h
  | cons x xs ih =>
      cases i with
      | zero => simp
      | succ i =>
          simp only [List.getD_cons_succ]
          exact List.mem_cons_of_mem x (ih i (by simpa using h))

/-- C5: `Buffer.put` writes the glyph and color into the cell exactly when
`0 ≤ x < w` and `0 ≤ y < h`; for any other integer coordinates it returns
the buffer completely unchanged (a silent no-op — the embedding is total, so
no exception can occur). -/
theorem put_bounds_check (b : Buffer) (hwf : b.Wf) (x y : ℤ) (c : Char)
    (col : Option Color) :
    ((0 ≤ x ∧ x < b.w ∧ 0 ≤ y ∧ y < b.h) →
      (b.put x y c col).chAt x y = c ∧ (b.put x y c col).fgAt x y = col) ∧
    (¬ (0 ≤ x ∧ x < b.w ∧ 0 ≤ y ∧ y < b.h) → b.put x y c col = b) := by
  obtain ⟨hch, hfg, hchw, hfgw⟩ := hwf
  constructor
  · rintro h
    obtain ⟨hx0, hxw, hy0, hyh⟩ := h
    have hyn : y.toNat < b.h.toNat := by omega
    have hyc : y.toNat < b.ch.length := by omega
    have hyf : y.toNat < b.fg.length := by omega
    have hxc : x.toNat < (b.ch.getD y.toNat []).length := by
      rw [hchw _ (list_getD_mem _ _ _ hyc)]
      omega
    have hxf : x.toNat < (b.fg.getD y.toNat []).length := by
      rw [hfgw _ (list_getD_mem _ _ _ hyf)]
      omega
    unfold Buffer.put
    rw [if_pos ⟨hx0, hxw, hy0, hyh⟩]
    unfold Buffer.chAt Buffer.fgAt
    dsimp only
    rw [list_getD_set_self b.ch y.toNat ((b.ch.getD y.toNat []).set x.toNat c) [] hyc,
      list_getD_set_self b.fg y.toNat ((b.fg.getD y.toNat []).set x.toNat col) [] hyf,
      list_getD_set_self (b.ch.getD y.toNat []) x.toNat c ' ' hxc,
      list_getD_set_self (b.fg.getD y.toNat []) x.toNat col none hxf]
    exact ⟨rfl, rfl⟩
  · intro h
    unfold Buffer.put
    rw [if_neg h]

/-- Closed instance of `put_bounds_check` on a fresh 20 × 10 buffer at the
out-of-range coordinates (-3, 1000). -/
theorem put_bounds_check_witness :
    (Buffer.init 20 10).Wf ∧
    (((0 ≤ (-3 : ℤ) ∧ (-3 : ℤ) < (Buffer.init 20 10).w ∧ 0 ≤ (1000 : ℤ) ∧
        (1000 : ℤ) < (Buffer.init 20 10).h) →
      ((Buffer.init 20 10).put (-3) 1000 'X' (some (1, 2, 3))).chAt (-3) 1000 = 'X' ∧
      ((Buffer.init 20 10).put (-3) 1000 'X' (some (1, 2, 3))).fgAt (-3) 1000 =
        some (1, 2, 3)) ∧
     (¬ (0 ≤ (-3 : ℤ) ∧ (-3 : ℤ) < (Buffer.init 20 10).w ∧ 0 ≤ (1000 : ℤ) ∧
        (1000 : ℤ) < (Buffer.init 20 10).h) →
      (Buffer.init 20 10).put (-3) 1000 'X' (some (1, 2, 3)) = Buffer.init 20 10)) :=
  ⟨by decide,
    put_bounds_check (Buffer.init 20 10) (by decide) (-3) 1000 'X' (some (1, 2, 3))⟩

/-- C8: `Buffer.resize` reallocates both grids blank (prior contents are
discarded) with dimensions exactly `max 20 w` by `max 10 h`; in particular
the scenario 40×20 → 10×5 → 60×30 yields grids of exactly 40×20, 20×10 and
60×30 cells. -/
theorem resize_floor_dims :
    (∀ (b : Buffer) (w h : ℤ),
      (b.resize w h).w = max 20 w ∧ (b.resize w h).h = max 10 h ∧
      (b.resize w h).ch =
        List.replicate (max 10 h).toNat (List.replicate (max 20 w).toNat ' ') ∧
      (b.resize w h).fg =
        List.replicate (max 10 h).toNat (List.replicate (max 20 w).toNat none)) ∧
    ((Buffer.init 40 20).w = 40 ∧ (Buffer.init 40 20).h = 20 ∧
     (Buffer.init 40 20).ch.length = 20 ∧
     (∀ row ∈ (Buffer.init 40 20).ch, row.length = 40) ∧
     ((Buffer.init 40 20).resize 10 5).w = 20 ∧
     ((Buffer.init 40 20).resize 10 5).h = 10 ∧
     ((Buffer.init 40 20).resize 10 5).ch.length = 10 ∧
     (∀ row ∈ ((Buffer.init 40 20).resize 10 5).ch, row.length = 20) ∧
     (((Buffer.init 40 20).resize 10 5).resize 60 30).w = 60 ∧
     (((Buffer.init 40 20).resize 10 5).resize 60 30).h = 30 ∧
     (((Buffer.init 40 20).resize 10 5).resize 60 30).ch.length = 30 ∧
     (∀ row ∈ (((Buffer.init 40 20).resize 10 5).resize 60 30).ch,
        row.length = 60)) :=
  ⟨fun _ _ _ => ⟨rfl, rfl, rfl, rfl⟩, by decide⟩

theorem zip_replicate_eq {α β : Type} (a : α) (c : β) (n : ℕ) :
    (List.replicate n a).zip (List.replicate n c) = List.replicate n (a, c) := by
  induction n with
  | zero => rfl
  | succ n ih => simp [List.replicate_succ, ih]

theorem renderCell_blank (n : ℕ) (acc : List Instr) :
    List.foldl renderCell (acc, (none : Option Color))
        (List.replicate n (' ', (none : Option Color))) =
      (acc ++ List.replicate n (Instr.glyph ' '), none) := by
  induction n generalizing acc with
  | zero => simp
  | succ n ih =>
      rw [List.replicate_succ, List.foldl_cons]
      have hcell : renderCell (acc, none) (' ', none) =
          (acc ++ [Instr.glyph ' '], none) := by
        simp [renderCell]
      rw [hcell, ih]
      rw [List.replicate_succ, List.append_assoc]
      rfl

theorem renderRow_blank (n : ℕ) :
    renderRow (List.replicate n ' ') (List.replicate n none) =
      List.replicate n (Instr.glyph ' ') ++ [Instr.reset] := by
  unfold renderRow
  rw [zip_replicate_eq, renderCell_blank]
  simp

theorem countControl_append (l₁ l₂ : List Instr) :
    countControl (l₁ ++ l₂) = countControl l₁ + countControl l₂ := by
  unfold countControl
  rw [List.filter_append, List.length_append]

theorem countControl_blank_row (n : ℕ) :
    countControl (List.replicate n (Instr.glyph ' ') ++ [Instr.reset]) = 1 := by
  rw [countControl_append]
  unfold countControl
  rw [List.filter_replicate]
  simp [Instr.isGlyph]

theorem countControl_flatten_replicate (k : ℕ) (l : List Instr) :
    countControl (List.replicate k l).flatten = k * countControl l := by
  induction k with
  | zero => simp [countControl]
  | succ k ih =>
      rw [List.replicate_succ, List.flatten_cons, countControl_append, ih]
      ring

theorem countControl_render_blank (b : Buffer)
    (hch : b.ch = List.replicate b.h.toNat (List.replicate b.w.toNat ' '))
    (hfg : b.fg = List.replicate b.h.toNat (List.replicate b.w.toNat none)) :
    countControl b.render = b.h.toNat := by
  unfold Buffer.render
  rw [hch, hfg, zip_replicate_eq, List.map_replicate, renderRow_blank,
    countControl_flatten_replicate, countControl_blank_row, Nat.mul_one]

/-- C6 (amended): for an all-blank buffer the render stream holds exactly one
control (non-glyph) instruction per row — the trailing style reset — so the
control-instruction count equals the height, independent of the width (but
not of the buffer area, contrary to the claim as stated). -/
theorem blank_render_control_count (b : Buffer)
    (hch : b.ch = List.replicate b.h.toNat (List.replicate b.w.toNat ' '))
    (hfg : b.fg = List.replicate b.h.toNat (List.replicate b.w.toNat none)) :
    countControl b.render = b.h.toNat :=
  countControl_render_blank b hch hfg

/-- Closed instance of `blank_render_control_count` on the fresh all-blank
20 × 10 buffer. -/
theorem blank_render_control_count_witness :
    ((Buffer.init 20 10).ch =
      List.replicate (Buffer.init 20 10).h.toNat
        (List.replicate (Buffer.init 20 10).w.toNat ' ')) ∧
    ((Buffer.init 20 10).fg =
      List.replicate (Buffer.init 20 10).h.toNat
        (List.replicate (Buffer.init 20 10).w.toNat none)) ∧
    countControl (Buffer.init 20 10).render = (Buffer.init 20 10).h.toNat :=
  ⟨rfl, rfl, blank_render_control_count (Buffer.init 20 10) rfl rfl⟩

/-- Counterexample to C6 as stated: the two all-blank buffers 20 × 10 and
20 × 20 produce render streams with 10 and 20 control instructions
respectively, so the count beyond the glyphs is not O(1) in the buffer area
(it grows with the number of rows). -/
theorem blank_render_count_counterexample :
    countControl (Buffer.init 20 10).render = 10 ∧
    countControl (Buffer.init 20 20).render = 20 ∧
    countControl (Buffer.init 20 10).render ≠ countControl (Buffer.init 20 20).render := by
  refine ⟨?_, ?_, ?_⟩
  · rw [countControl_render_blank (Buffer.init 20 10) rfl rfl]
    rfl
  · rw [countControl_render_blank (Buffer.init 20 20) rfl rfl]
    rfl
  · rw [countControl_render_blank (Buffer.init 20 10) rfl rfl,
      countControl_render_blank (Buffer.init 20 20) rfl rfl]
    decide

set_option maxRecDepth 100000 in
/-- C7: in the 40 × 20 scenario buffer with `A` and `B` both red at (5,5) and
(6,5), the render stream has exactly one color-set instruction in total, and
it is emitted immediately before `A` with nothing at all between the `A` and
`B` glyph emissions (same-color run). -/
theorem render_single_color_run :
    countSetColor scenarioBuf.render = 1 ∧
    containsBlock [Instr.setColor 255 0 0, Instr.glyph 'A', Instr.glyph 'B']
      scenarioBuf.render = true := by
  constructor
  · decide
  · decide

/-- C9: one call of `explode` appends the burst cohort followed by the
glitter cohort; with the cohort sizes drawn from `randint(70, 130)` and
`randint(40, 70)`, the total number of new fragments is between 110 and 200
inclusive. -/
theorem explode_cohort_counts (fcos fsin : ℚ → ℚ) (ps : List Particle)
    (x y w h : ℚ) (color : Color) (burst : List BurstDraw)
    (glitter : List GlitterDraw)
    (hb : 70 ≤ burst.length) (hb' : burst.length ≤ 130)
    (hg : 40 ≤ glitter.length) (hg' : glitter.length ≤ 70) :
    (explode fcos fsin ps x y w h color burst glitter).length =
      ps.length + (burst.length + glitter.length) ∧
    110 ≤ burst.length + glitter.length ∧ burst.length + glitter.length ≤ 200 := by
  refine ⟨?_, by omega, by omega⟩
  unfold explode
  simp [Nat.add_assoc]

/-- Closed instance of `explode_cohort_counts` with cohorts of 70 burst and
40 glitter fragments. -/
theorem explode_cohort_counts_witness :
    70 ≤ (List.replicate 70 (BurstDraw.mk 0 1 20 '•')).length ∧
    (List.replicate 70 (BurstDraw.mk 0 1 20 '•')).length ≤ 130 ∧
    40 ≤ (List.replicate 40 (GlitterDraw.mk 0 1 40)).length ∧
    (List.replicate 40 (GlitterDraw.mk 0 1 40)).length ≤ 70 ∧
    ((explode (fun _ => 1) (fun _ => 0) [] 5 6 100 30 (255, 0, 0)
        (List.replicate 70 (BurstDraw.mk 0 1 20 '•'))
        (List.replicate 40 (GlitterDraw.mk 0 1 40))).length =
      ([] : List Particle).length +
        ((List.replicate 70 (BurstDraw.mk 0 1 20 '•')).length +
          (List.replicate 40 (GlitterDraw.mk 0 1 40)).length) ∧
     110 ≤ (List.replicate 70 (BurstDraw.mk 0 1 20 '•')).length +
        (List.replicate 40 (GlitterDraw.mk 0 1 40)).length ∧
     (List.replicate 70 (BurstDraw.mk 0 1 20 '•')).length +
        (List.replicate 40 (GlitterDraw.mk 0 1 40)).length ≤ 200) :=
  ⟨by simp, by simp, by simp, by simp,
    explode_cohort_counts (fun _ => 1) (fun _ => 0) [] 5 6 100 30 (255, 0, 0)
      (List.replicate 70 (BurstDraw.mk 0 1 20 '•'))
      (List.replicate 40 (GlitterDraw.mk 0 1 40))
      (by simp) (by simp) (by simp) (by simp)⟩

theorem noRocket_update (frags : ℚ → ℚ → List Particle) (ps : List Particle)
    (hps : ∀ p ∈ ps, p.char ≠ '|') :
    (updateParticles frags ps).2 = [] ∧
    ∀ q ∈ (updateParticles frags ps).1, q.char ≠ '|' := by
  rw [updateParticles_eq]
  constructor
  · dsimp only
    rw [List.flatten_eq_nil_iff]
    intro l hl
    rw [List.mem_map] at hl
    obtain ⟨p, hp, rfl⟩ := hl
    rw [if_neg]
    intro hc
    exact hps p hp hc.1
  · dsimp only
    intro q hq
    rw [List.mem_flatten] at hq
    obtain ⟨l, hl, hql⟩ := hq
    rw [List.mem_map] at hl
    obtain ⟨p, hp, rfl⟩ := hl
    rw [if_neg (fun hc => hps p hp hc.1), List.nil_append] at hql
    by_cases ha : 0 < (Particle.step p).life
    · rw [if_pos ha, List.mem_singleton] at hql
      rw [hql, Particle.step_char]
      exact hps p hp
    · rw [if_neg ha] at hql
      exact absurd hql (List.not_mem_nil q)

theorem noRocket_iterLive (frags : ℚ → ℚ → List Particle) (ps : List Particle)
    (hps : ∀ p ∈ ps, p.char ≠ '|') (n : ℕ) :
    ∀ p ∈ iterLive frags ps n, p.char ≠ '|' := by
  induction n with
  | zero => exact hps
  | succ n ih => exact (noRocket_update frags _ ih).2

/-- C10: every particle appended by `explode` carries a glyph from the
sparkle set (the fine dot of the glitter cohort is itself in that set) and never
the rocket glyph; consequently a live set consisting of explosion fragments
generates no explosion event at any later simulation step — only rockets
spawned by `spawn_firework` ever explode. -/
theorem explode_fragments_no_reexplosion (fcos fsin : ℚ → ℚ) (x y w h : ℚ)
    (color : Color) (burst : List BurstDraw) (glitter : List GlitterDraw)
    (hchar : ∀ d ∈ burst, d.char ∈ sparkleChars) :
    (∀ p ∈ explode fcos fsin [] x y w h color burst glitter,
        p.char ∈ sparkleChars ∧ p.char ≠ '|') ∧
    (∀ (frags : ℚ → ℚ → List Particle) (n : ℕ),
        eventsAt frags (explode fcos fsin [] x y w h color burst glitter) n = []) := by
  have hnotbar : ∀ c : Char, c ∈ sparkleChars → c ≠ '|' := by decide
  have hmem : ∀ p ∈ explode fcos fsin [] x y w h color burst glitter,
      p.char ∈ sparkleChars := by
    intro p hp
    unfold explode at hp
    rw [List.mem_append] at hp
    rcases hp with hp | hp
    · rw [List.nil_append, List.mem_map] at hp
      obtain ⟨d, hd, rfl⟩ := hp
      exact hchar d hd
    · rw [List.mem_map] at hp
      obtain ⟨d, _, rfl⟩ := hp
      show '·' ∈ sparkleChars
      decide
  refine ⟨fun p hp => ⟨hmem p hp, hnotbar _ (hmem p hp)⟩, ?_⟩
  intro frags n
  unfold eventsAt
  exact (noRocket_update frags _
    (noRocket_iterLive frags _ (fun p hp => hnotbar _ (hmem p hp)) n)).1

/-- Closed instance of `explode_fragments_no_reexplosion` with a one-fragment
burst cohort and a one-fragment glitter cohort. -/
theorem explode_fragments_no_reexplosion_witness :
    (∀ d ∈ [BurstDraw.mk 0 1 20 '•'], d.char ∈ sparkleChars) ∧
    ((∀ p ∈ explode (fun _ => 1) (fun _ => 0) [] 5 6 100 30 (255, 0, 0)
          [BurstDraw.mk 0 1 20 '•'] [GlitterDraw.mk 0 1 40],
        p.char ∈ sparkleChars ∧ p.char ≠ '|') ∧
     (∀ (frags : ℚ → ℚ → List Particle) (n : ℕ),
        eventsAt frags (explode (fun _ => 1) (fun _ => 0) [] 5 6 100 30 (255, 0, 0)
          [BurstDraw.mk 0 1 20 '•'] [GlitterDraw.mk 0 1 40]) n = [])) :=
  ⟨fun d hd => by
      rw [List.mem_singleton] at hd
      rw [hd]
      decide,
    explode_fragments_no_reexplosion (fun _ => 1) (fun _ => 0) 5 6 100 30 (255, 0, 0)
      [BurstDraw.mk 0 1 20 '•'] [GlitterDraw.mk 0 1 40]
      (fun d hd => by
        rw [List.mem_singleton] at hd
        rw [hd]
        decide)⟩

end WowShow
